import Mathlib

/-!
Shallow embedding of `src/index.ts` (rate-limit-redis).

The limiter stores all window state in a Redis sorted set, one key per
identifier (`keyPrefix + identifier`).  Every operation of the limiter
touches only that one key, so the store is modelled as the state of a
single key: a list of `(score, member)` entries plus an optional absolute
expiry timestamp.  Redis deletes a sorted set that loses its last member,
and an absent key has no expiry; `zremrangebyscore` therefore normalises
an emptied record to the absent record.  `Math.random()` is modelled as an
explicit argument `rnd : Nat → String` giving the stringified random
component used by the i-th `zadd` of a call.  JavaScript's `x || d`
on numbers (`options.windowMs || 60000`, `count || 0`, `ttl || windowMs`)
replaces exactly the value `0` (and an absent value) by the default;
on strings it replaces `""`.
-/

/-- Result record returned by `check` and `consume`
(`RateLimitResult` in the source; `resetAt` is the `Date` as epoch ms). -/
structure RateLimitResult where
  allowed : Bool
  remaining : Int
  total : Int
  resetAt : Int
deriving Repr, DecidableEq

/-- The state of one Redis key: sorted-set entries `(score, member)` in
insertion order, and the key's absolute expiry time (ms), if set.
The absent key is `⟨[], none⟩`. -/
structure RecordState where
  entries : List (Int × String)
  expiry : Option Int
deriving Repr, DecidableEq

/-- The absent key. -/
def emptyRecord : RecordState := ⟨[], none⟩

/-- Server-side expiry: a key whose expiry time has passed is gone. -/
def applyExpiry (now : Int) (r : RecordState) : RecordState :=
  match r.expiry with
  | some e => if e ≤ now then emptyRecord else r
  | none => r

/-- Redis ZREMRANGEBYSCORE key lo hi (inclusive range); a sorted set
emptied of its members is deleted (expiry gone with it). -/
def zremrangebyscore (lo hi : Int) (r : RecordState) : RecordState :=
  let es := r.entries.filter (fun p => decide ¬ (lo ≤ p.1 ∧ p.1 ≤ hi))
  if es.isEmpty then emptyRecord else ⟨es, r.expiry⟩

/-- Redis ZCARD key. -/
def zcard (r : RecordState) : Nat := r.entries.length

/-- Redis PTTL key: -2 when the key is absent, -1 when it has no expiry,
else the remaining lifetime in ms. -/
def pttl (now : Int) (r : RecordState) : Int :=
  if r.entries.isEmpty then -2
  else
    match r.expiry with
    | none => -1
    | some e => e - now

/-- Redis ZADD key score member: update the member's score if the member
is already present, else append a new entry. -/
def zadd (score : Int) (member : String) (r : RecordState) : RecordState :=
  if r.entries.any (fun p => p.2 == member) then
    ⟨r.entries.map (fun p => if p.2 == member then (score, p.2) else p), r.expiry⟩
  else
    ⟨r.entries ++ [(score, member)], r.expiry⟩

/-- Redis PEXPIRE key ms: sets the expiry only when the key exists
(on an absent key it is a no-op returning 0). -/
def pexpire (now durationMs : Int) (r : RecordState) : RecordState :=
  if r.entries.isEmpty then r else ⟨r.entries, some (now + durationMs)⟩

/-- Redis DEL key. -/
def redisDel (_ : RecordState) : RecordState := emptyRecord

/-- JavaScript `x || d` on a number already known to be a number:
`0` is falsy, everything else (negative numbers included) is truthy. -/
def jsOrInt (x d : Int) : Int := if x = 0 then d else x

/-- JavaScript `s || d` on a string: `""` is falsy. -/
def jsOrStr (s d : String) : String := if s = "" then d else s

/-- JavaScript `x || d` where `x` is an optional number field:
`undefined` and `0` are falsy. -/
def jsOrOptInt (x : Option Int) (d : Int) : Int :=
  match x with
  | none => d
  | some v => jsOrInt v d

/-- JavaScript `s || d` where `s` is an optional string field. -/
def jsOrOptStr (s : Option String) (d : String) : String :=
  match s with
  | none => d
  | some v => jsOrStr v d

/-- `RateLimiterOptions` (the `redis` handle is implicit in the model). -/
structure RateLimiterOptions where
  windowMs : Option Int := none
  max : Option Int := none
  keyPrefix : Option String := none
deriving Repr, DecidableEq

/-- The limiter's immutable configuration (`RateLimiter`'s fields). -/
structure RateLimiter where
  windowMs : Int
  max : Int
  keyPrefix : String
deriving Repr, DecidableEq

/-- The constructor:
`windowMs = options.windowMs || 60000`, `max = options.max || 100`,
`keyPrefix = options.keyPrefix || 'rl:'`. -/
def RateLimiter.ofOptions (options : RateLimiterOptions) : RateLimiter :=
  { windowMs := jsOrOptInt options.windowMs 60000
    max := jsOrOptInt options.max 100
    keyPrefix := jsOrOptStr options.keyPrefix "rl:" }

/-- `getKey(identifier)`. -/
def RateLimiter.getKey (L : RateLimiter) (identifier : String) : String :=
  L.keyPrefix ++ identifier

/-- The trim both `check` and `consume` open with:
`zremrangebyscore(key, 0, now - windowMs)` on the (possibly expired)
record. -/
def RateLimiter.postTrim (L : RateLimiter) (now : Int) (r0 : RecordState) : RecordState :=
  zremrangebyscore 0 (now - L.windowMs) (applyExpiry now r0)

/-- `check(identifier)`: trim, read `zcard` and `pttl` in one MULTI,
derive the decision.  Returns the result and the post-call record state. -/
def RateLimiter.check (L : RateLimiter) (now : Int) (r0 : RecordState) :
    RateLimitResult × RecordState :=
  let r1 := L.postTrim now r0
  let count := jsOrInt (zcard r1 : Int) 0
  let ttl := jsOrInt (pttl now r1) L.windowMs
  let remaining := Max.max 0 (L.max - count)
  let resetAt := now + Max.max ttl 0
  (⟨decide (count < L.max), remaining, L.max, resetAt⟩, r1)

/-- The token `` `${now}-${i}-${Math.random()}` `` of the i-th `zadd`,
with `rnd` the stringified random component. -/
def tokenOf (now : Int) (i : Nat) (rnd : String) : String :=
  toString now ++ "-" ++ toString i ++ "-" ++ rnd

/-- The `for (let i = 0; i < cost; i++) addMulti.zadd(...)` loop. -/
def addEntries (now : Int) (cost : Nat) (rnd : Nat → String) (r : RecordState) : RecordState :=
  (List.range cost).foldl
    (fun (acc : RecordState) (i : Nat) => zadd (now + (i : Int)) (tokenOf now i (rnd i)) acc) r

/-- `consume(identifier, cost = 1)`: trim and count; if
`currentCount >= max` reject (reading `pttl` for `resetAt`), else add
`cost` entries and `pexpire` the key in a second MULTI.  Returns the
result and the post-call record state. -/
def RateLimiter.consume (L : RateLimiter) (now : Int) (cost : Int) (rnd : Nat → String)
    (r0 : RecordState) : RateLimitResult × RecordState :=
  let r1 := L.postTrim now r0
  let currentCount := jsOrInt (zcard r1 : Int) 0
  if L.max ≤ currentCount then
    let ttl := pttl now r1
    (⟨false, 0, L.max, now + Max.max ttl 0⟩, r1)
  else
    let r2 := addEntries now cost.toNat rnd r1
    let r3 := pexpire now L.windowMs r2
    let remaining := Max.max 0 (L.max - currentCount - cost)
    (⟨true, remaining, L.max, now + L.windowMs⟩, r3)

/-- `reset(identifier)`: `DEL` on the key. -/
def RateLimiter.reset (_L : RateLimiter) (r : RecordState) : RecordState :=
  redisDel r

/-- The record state after `k` sequential `consume(id, cost=1)` calls at
time `t` starting from `st`, the j-th call drawing random component `r j`. -/
def RateLimiter.consumeStateAfter (L : RateLimiter) (t : Int) (r : Nat → String)
    (st : RecordState) : Nat → RecordState
  | 0 => st
  | k + 1 =>
      (L.consume t 1 (fun _ => r k) (L.consumeStateAfter t r st k)).2

/-- The result of the (k+1)-th sequential `consume(id, cost=1)` call
(0-indexed `k`) at time `t` starting from `st`. -/
def RateLimiter.consumeResultAt (L : RateLimiter) (t : Int) (r : Nat → String)
    (st : RecordState) (k : Nat) : RateLimitResult :=
  (L.consume t 1 (fun _ => r k) (L.consumeStateAfter t r st k)).1

/-- The record the monotonic-admission induction maintains: `k` entries all
scored `t`, expiry `t + w` once the record is nonempty. -/
def seqRecord (w t : Int) (r : Nat → String) (k : Nat) : RecordState :=
  ⟨(List.range k).map (fun (j : Nat) => (t, tokenOf t 0 (r j))),
   if k = 0 then none else some (t + w)⟩

-- Basic sanity checks of the embedding on the spec's worked example
-- (`windowMs=1000, max=2`, consumes at t=0 and t=100, reject at t=200).
example :
    ((⟨1000, 2, "rl:"⟩ : RateLimiter).consume 0 1 (fun _ => "a") emptyRecord).1 =
      ⟨true, 1, 2, 1000⟩ := by decide

example :
    (((⟨1000, 2, "rl:"⟩ : RateLimiter).consume 100 1 (fun _ => "b")
        ((⟨1000, 2, "rl:"⟩ : RateLimiter).consume 0 1 (fun _ => "a") emptyRecord).2).1) =
      ⟨true, 0, 2, 1100⟩ := by decide

/-! ## Helper lemmas -/

lemma jsOrInt_zero_right (x : Int) : jsOrInt x 0 = x := by
  unfold jsOrInt; split <;> omega

lemma pexpire_entries (now d : Int) (r : RecordState) :
    (pexpire now d r).entries = r.entries := by
  unfold pexpire; split <;> rfl

lemma zadd_not_mem (score : Int) (member : String) (r : RecordState)
    (h : ∀ p ∈ r.entries, p.2 ≠ member) :
    zadd score member r = ⟨r.entries ++ [(score, member)], r.expiry⟩ := by
  have hne : r.entries.any (fun p => p.2 == member) = false := by
    rw [List.any_eq_false]
    intro p hp
    simpa using h p hp
  unfold zadd
  rw [hne]
  simp

/-! ## Claim theorems -/

/-- C6: for every `consume` whose post-trim count satisfies `count ≥ max`,
the call returns normally (the embedding is a total function) with
`allowed = false` and `remaining = 0`, and writes nothing beyond the trim:
the final record state equals the post-trim state. -/
theorem C6_rejected_consume_spec (L : RateLimiter) (now cost : Int) (rnd : Nat → String)
    (r0 : RecordState) (hrej : L.max ≤ (zcard (L.postTrim now r0) : Int)) :
    (L.consume now cost rnd r0).1.allowed = false ∧
    (L.consume now cost rnd r0).1.remaining = 0 ∧
    (L.consume now cost rnd r0).2 = L.postTrim now r0 := by
  unfold RateLimiter.consume
  simp only [jsOrInt_zero_right]
  rw [if_pos hrej]
  exact ⟨rfl, rfl, rfl⟩

theorem C6_rejected_consume_spec_witness :
    (((⟨1000, 1, "p"⟩ : RateLimiter).consume 0 1 (fun _ => "z")
        ⟨[(0, "tok")], some 1000⟩).1.allowed = false) ∧
    (((⟨1000, 1, "p"⟩ : RateLimiter).consume 0 1 (fun _ => "z")
        ⟨[(0, "tok")], some 1000⟩).1.remaining = 0) ∧
    (((⟨1000, 1, "p"⟩ : RateLimiter).consume 0 1 (fun _ => "z")
        ⟨[(0, "tok")], some 1000⟩).2 =
      RateLimiter.postTrim ⟨1000, 1, "p"⟩ 0 ⟨[(0, "tok")], some 1000⟩) :=
  C6_rejected_consume_spec ⟨1000, 1, "p"⟩ 0 1 (fun _ => "z") ⟨[(0, "tok")], some 1000⟩
    (by decide)

/-- C7: `reset` unconditionally deletes the record (total, so no error on an
absent identifier); `reset` followed by `check` yields
`allowed = true, remaining = total = max` (for `max > 0`), and the whole
`check` outcome is identical to `check` on a never-used identifier. -/
theorem C7_reset_then_check (L : RateLimiter) (hmax : 0 < L.max) (now : Int)
    (r0 : RecordState) :
    L.reset r0 = emptyRecord ∧
    (L.check now (L.reset r0)).1 =
      ⟨true, L.max, L.max, now⟩ ∧
    L.check now (L.reset r0) = L.check now emptyRecord := by
  refine ⟨rfl, ?_, rfl⟩
  have e : L.check now (L.reset r0) = L.check now emptyRecord := rfl
  rw [e]
  simp only [RateLimiter.check, RateLimiter.postTrim, applyExpiry, zremrangebyscore,
    zcard, pttl, jsOrInt, emptyRecord]
  norm_num
  exact ⟨hmax, hmax.le⟩

theorem C7_reset_then_check_witness :
    ((⟨1000, 100, "rl:"⟩ : RateLimiter).reset ⟨[(1, "a"), (2, "b")], some 5000⟩ =
      emptyRecord) ∧
    (((⟨1000, 100, "rl:"⟩ : RateLimiter).check 42
        ((⟨1000, 100, "rl:"⟩ : RateLimiter).reset ⟨[(1, "a"), (2, "b")], some 5000⟩)).1 =
      ⟨true, 100, 100, 42⟩) ∧
    ((⟨1000, 100, "rl:"⟩ : RateLimiter).check 42
        ((⟨1000, 100, "rl:"⟩ : RateLimiter).reset ⟨[(1, "a"), (2, "b")], some 5000⟩) =
      (⟨1000, 100, "rl:"⟩ : RateLimiter).check 42 emptyRecord) :=
  C7_reset_then_check ⟨1000, 100, "rl:"⟩ (by decide) 42 ⟨[(1, "a"), (2, "b")], some 5000⟩

/-- C9: falsy option values (`0` for the numbers, `""` for the prefix) are
silently replaced by the defaults `60000`, `100`, `"rl:"`, exactly as for
omitted options; in particular a limiter configured with `max = 0` behaves
as one with `max = 100` and admits a request on a fresh window with
`total = 100`. -/
theorem C9_falsy_defaults :
    RateLimiter.ofOptions ⟨some 0, some 0, some ""⟩ = ⟨60000, 100, "rl:"⟩ ∧
    RateLimiter.ofOptions ⟨none, none, none⟩ = ⟨60000, 100, "rl:"⟩ ∧
    RateLimiter.ofOptions ⟨some 0, some 0, some ""⟩ =
      RateLimiter.ofOptions ⟨some 60000, some 100, some "rl:"⟩ ∧
    ((RateLimiter.ofOptions ⟨some 60000, some 0, some "rl:"⟩).consume 0 1
        (fun _ => "a") emptyRecord).1 =
      ((⟨60000, 100, "rl:"⟩ : RateLimiter).consume 0 1 (fun _ => "a") emptyRecord).1 ∧
    ((RateLimiter.ofOptions ⟨some 60000, some 0, some "rl:"⟩).consume 0 1
        (fun _ => "a") emptyRecord).1.allowed = true ∧
    ((RateLimiter.ofOptions ⟨some 60000, some 0, some "rl:"⟩).consume 0 1
        (fun _ => "a") emptyRecord).1.total = 100 := by
  decide

/-- C1 counterexample: on a fresh window with `max = 10`, after
`consume(id, cost=5)` (admitted, `remaining = 5`), the subsequent
`consume(id, cost=6)` is NOT rejected: the guard only tests
`count ≥ max` (5 ≥ 10 is false), so the call is admitted and the stored
entry count grows to 11, not staying at 5. -/
theorem C1_cost_rejection_cex :
    (((⟨1000, 10, "rl:"⟩ : RateLimiter).consume 0 5 (fun _ => "a") emptyRecord).1 =
      ⟨true, 5, 10, 1000⟩) ∧
    (((⟨1000, 10, "rl:"⟩ : RateLimiter).consume 0 6 (fun _ => "b")
        ((⟨1000, 10, "rl:"⟩ : RateLimiter).consume 0 5 (fun _ => "a")
          emptyRecord).2).1.allowed = true) ∧
    zcard ((⟨1000, 10, "rl:"⟩ : RateLimiter).consume 0 6 (fun _ => "b")
        ((⟨1000, 10, "rl:"⟩ : RateLimiter).consume 0 5 (fun _ => "a")
          emptyRecord).2).2 = 11 := by
  decide

/-- C1 amended: `consume(id, cost=5)` on a fresh window with `max = 10`
admits with `remaining = 5`; the subsequent `consume(id, cost=6)` in the
same window is ALSO admitted (the guard only checks `count ≥ max`),
returning `allowed = true, remaining = 0` (clamped from 10 − 5 − 6) and
raising the stored entry count to 11. -/
theorem C1_cost_overadmission :
    (((⟨1000, 10, "rl:"⟩ : RateLimiter).consume 0 5 (fun _ => "a") emptyRecord).1 =
      ⟨true, 5, 10, 1000⟩) ∧
    (((⟨1000, 10, "rl:"⟩ : RateLimiter).consume 0 6 (fun _ => "b")
        ((⟨1000, 10, "rl:"⟩ : RateLimiter).consume 0 5 (fun _ => "a")
          emptyRecord).2).1 = ⟨true, 0, 10, 1000⟩) ∧
    zcard ((⟨1000, 10, "rl:"⟩ : RateLimiter).consume 0 6 (fun _ => "b")
        ((⟨1000, 10, "rl:"⟩ : RateLimiter).consume 0 5 (fun _ => "a")
          emptyRecord).2).2 = 11 := by
  decide

/-- C2 counterexample: `check` on an absent record with
`windowMs = 1000` at `now = 5` returns `resetAt = 5` (= `now`), not
`now + windowMs = 1005`: `pttl` yields the sentinel −2, which is truthy in
JavaScript, so `ttl || windowMs` keeps −2 and `max(ttl, 0)` clamps it
to 0. -/
theorem C2_resetAt_fresh_cex :
    ((⟨1000, 100, "rl:"⟩ : RateLimiter).check 5 emptyRecord).1.resetAt = 5 ∧
    ((⟨1000, 100, "rl:"⟩ : RateLimiter).check 5 emptyRecord).1.resetAt ≠ 5 + 1000 := by
  decide

lemma zremrangebyscore_eq_empty (lo hi : Int) (r : RecordState)
    (h : (zremrangebyscore lo hi r).entries.isEmpty = true) :
    zremrangebyscore lo hi r = emptyRecord := by
  by_cases hc :
      (r.entries.filter (fun p => decide ¬ (lo ≤ p.1 ∧ p.1 ≤ hi))).isEmpty = true
  · show (if (r.entries.filter (fun p => decide ¬ (lo ≤ p.1 ∧ p.1 ≤ hi))).isEmpty = true
        then emptyRecord
        else ⟨r.entries.filter (fun p => decide ¬ (lo ≤ p.1 ∧ p.1 ≤ hi)), r.expiry⟩)
      = emptyRecord
    rw [if_pos hc]
  · exfalso
    revert h
    show ((if (r.entries.filter (fun p => decide ¬ (lo ≤ p.1 ∧ p.1 ≤ hi))).isEmpty = true
        then emptyRecord
        else ⟨r.entries.filter (fun p => decide ¬ (lo ≤ p.1 ∧ p.1 ≤ hi)),
          r.expiry⟩) : RecordState).entries.isEmpty = true → False
    rw [if_neg hc]
    exact fun hh => hc hh

lemma postTrim_empty (L : RateLimiter) (now : Int) (r0 : RecordState)
    (h : (L.postTrim now r0).entries.isEmpty = true) :
    L.postTrim now r0 = emptyRecord :=
  zremrangebyscore_eq_empty _ _ _ h

lemma addEntries_append (now : Int) (c : Nat) (rnd : Nat → String) (r : RecordState)
    (hfresh : ∀ i, i < c → ∀ p ∈ r.entries, p.2 ≠ tokenOf now i (rnd i))
    (hdist : ∀ i, i < c → ∀ j, j < c →
      tokenOf now i (rnd i) = tokenOf now j (rnd j) → i = j) :
    addEntries now c rnd r =
      ⟨r.entries ++ (List.range c).map
        (fun (i : Nat) => (now + (i : Int), tokenOf now i (rnd i))),
       r.expiry⟩ := by
  induction c with
  | zero => simp [addEntries]
  | succ n ih =>
      have hstep : addEntries now (n + 1) rnd r
          = zadd (now + (n : Int)) (tokenOf now n (rnd n)) (addEntries now n rnd r) := by
        unfold addEntries
        rw [List.range_succ, List.foldl_append]
        rfl
      rw [hstep, ih (fun i hi => hfresh i (Nat.lt_succ_of_lt hi))
        (fun i hi j hj => hdist i (Nat.lt_succ_of_lt hi) j (Nat.lt_succ_of_lt hj))]
      rw [zadd_not_mem]
      · simp [List.range_succ]
      · intro p hp
        simp only [List.mem_append, List.mem_map, List.mem_range] at hp
        rcases hp with hp | ⟨i, hi, rfl⟩
        · exact hfresh n (Nat.lt_succ_self n) p hp
        · intro hEq
          have := hdist i (Nat.lt_succ_of_lt hi) n (Nat.lt_succ_self n) hEq
          omega

/-- C2 amended: writing `p` for the `pttl` result on the trimmed record,
`check` returns `resetAt = now + p` when `p > 0` (an active expiry);
`resetAt = now + max(windowMs, 0)` only in the edge case `p = 0` (the sole
falsy value `|| windowMs` replaces); and `resetAt = now` when `p < 0`
(record absent, sentinel −2, or no expiry set, sentinel −1): the negative
sentinels are truthy, so they survive `|| windowMs` and are clamped to 0
by `max(ttl, 0)`. -/
theorem C2_check_resetAt_cases (L : RateLimiter) (now : Int) (r0 : RecordState) :
    (0 < pttl now (L.postTrim now r0) →
      (L.check now r0).1.resetAt = now + pttl now (L.postTrim now r0)) ∧
    (pttl now (L.postTrim now r0) = 0 →
      (L.check now r0).1.resetAt = now + Max.max L.windowMs 0) ∧
    (pttl now (L.postTrim now r0) < 0 → (L.check now r0).1.resetAt = now) := by
  have e : (L.check now r0).1.resetAt
      = now + Max.max (jsOrInt (pttl now (L.postTrim now r0)) L.windowMs) 0 := rfl
  refine ⟨fun h => ?_, fun h => ?_, fun h => ?_⟩ <;> rw [e] <;> unfold jsOrInt
  · rw [if_neg (by omega)]
    rw [max_eq_left h.le]
  · rw [if_pos h]
  · rw [if_neg (by omega)]
    rw [max_eq_right h.le]
    omega

theorem C2_check_resetAt_cases_witness :
    ((⟨1000, 100, "rl:"⟩ : RateLimiter).check 5 ⟨[(5, "a")], some 500⟩).1.resetAt = 500 :=
  (C2_check_resetAt_cases ⟨1000, 100, "rl:"⟩ 5 ⟨[(5, "a")], some 500⟩).1 (by decide)

/-- C3 counterexample: no validation happens anywhere.  Constructing with
`windowMs = 0, max = 0, keyPrefix = ""` silently substitutes the defaults
(the claim says invalid values are never silently replaced); constructing
with negative `windowMs`/`max` is accepted as-is; and `consume` with the
negative cost −3 is not rejected either: it is admitted and even reports
`remaining = 13 > max` (`max(0, 10 − 0 − (−3))`). -/
theorem C3_validation_cex :
    RateLimiter.ofOptions ⟨some 0, some 0, some ""⟩ = ⟨60000, 100, "rl:"⟩ ∧
    RateLimiter.ofOptions ⟨some (-5), some (-7), some "p"⟩ = ⟨-5, -7, "p"⟩ ∧
    ((⟨1000, 10, "p"⟩ : RateLimiter).consume 0 (-3) (fun _ => "a") emptyRecord).1 =
      ⟨true, 13, 10, 1000⟩ := by
  decide

/-- C3 amended: the code performs no configuration or cost validation and
raises no `InvalidConfiguration` error (every operation is total).  Nonzero
values — negative ones included — are kept as given; the falsy values `0`
and `""` are silently replaced by the defaults; and a negative `cost` is
accepted by `consume`: the insertion loop body runs zero times, so the
stored entries are exactly those left by the trim. -/
theorem C3_no_validation (w m c : Int) (p : String) (hw : w ≠ 0) (hm : m ≠ 0)
    (hp : p ≠ "") (hc : c < 0) (now : Int) (rnd : Nat → String) (r0 : RecordState) :
    RateLimiter.ofOptions ⟨some w, some m, some p⟩ = ⟨w, m, p⟩ ∧
    RateLimiter.ofOptions ⟨some 0, some 0, some ""⟩ = ⟨60000, 100, "rl:"⟩ ∧
    ((⟨w, m, p⟩ : RateLimiter).consume now c rnd r0).2.entries =
      (RateLimiter.postTrim ⟨w, m, p⟩ now r0).entries := by
  refine ⟨?_, by decide, ?_⟩
  · unfold RateLimiter.ofOptions jsOrOptInt jsOrOptStr jsOrInt jsOrStr
    simp [hw, hm, hp]
  · unfold RateLimiter.consume
    simp only [jsOrInt_zero_right]
    split
    · rfl
    · have hc0 : c.toNat = 0 := by omega
      rw [hc0]
      simp only [addEntries, List.range_zero, List.foldl_nil]
      exact pexpire_entries _ _ _

theorem C3_no_validation_witness :
    RateLimiter.ofOptions ⟨some 2000, some 5, some "x"⟩ = ⟨2000, 5, "x"⟩ ∧
    RateLimiter.ofOptions ⟨some 0, some 0, some ""⟩ = ⟨60000, 100, "rl:"⟩ ∧
    ((⟨2000, 5, "x"⟩ : RateLimiter).consume 7 (-3) (fun _ => "z") emptyRecord).2.entries =
      (RateLimiter.postTrim ⟨2000, 5, "x"⟩ 7 emptyRecord).entries :=
  C3_no_validation 2000 5 (-3) "x" (by decide) (by decide) (by decide) (by decide) 7
    (fun _ => "z") emptyRecord

/-- C5 counterexample: an admitted `consume` with `cost = 0` on an absent
record (post-trim count 0 < max) does NOT reset the record's expiry to
`windowMs` from now: no entry is inserted, the key stays absent, and
`PEXPIRE` on an absent key is a no-op, so the final expiry is `none`, not
`some (now + windowMs)`. -/
theorem C5_expiry_cex :
    ((⟨1000, 10, "rl:"⟩ : RateLimiter).consume 0 0 (fun _ => "a") emptyRecord).1.allowed
      = true ∧
    ((⟨1000, 10, "rl:"⟩ : RateLimiter).consume 0 0 (fun _ => "a") emptyRecord).2.expiry
      = none ∧
    ((⟨1000, 10, "rl:"⟩ : RateLimiter).consume 0 0 (fun _ => "a") emptyRecord).2.expiry
      ≠ some (0 + 1000) := by
  decide

/-- C5 amended: for every admitted `consume` (post-trim `count < max`) with
`cost ≥ 1` whose generated tokens are fresh (not already stored) and
pairwise distinct — the code's negligible-collision assumption — the call
appends exactly `cost` new entries scored `now + i` (i = 0..cost−1) with
tokens built from the timestamp, the sequence index and the random
component, sets the record's expiry to `windowMs` from now, and returns
`allowed = true`, `remaining = max(0, max − count − cost)`,
`resetAt = now + windowMs`.  (With `cost = 0` on an empty record the
expiry-reset clause fails, see the counterexample.) -/
theorem C5_admitted_consume_spec (L : RateLimiter) (now cost : Int) (rnd : Nat → String)
    (r0 : RecordState)
    (hadm : (zcard (L.postTrim now r0) : Int) < L.max)
    (hcost : 1 ≤ cost)
    (hfresh : ∀ i, i < cost.toNat → ∀ p ∈ (L.postTrim now r0).entries,
      p.2 ≠ tokenOf now i (rnd i))
    (hdist : ∀ i, i < cost.toNat → ∀ j, j < cost.toNat →
      tokenOf now i (rnd i) = tokenOf now j (rnd j) → i = j) :
    (L.consume now cost rnd r0).1 =
      ⟨true, Max.max 0 (L.max - zcard (L.postTrim now r0) - cost), L.max,
        now + L.windowMs⟩ ∧
    (L.consume now cost rnd r0).2 =
      ⟨(L.postTrim now r0).entries ++
        (List.range cost.toNat).map
          (fun (i : Nat) => (now + (i : Int), tokenOf now i (rnd i))),
       some (now + L.windowMs)⟩ := by
  unfold RateLimiter.consume
  simp only [jsOrInt_zero_right]
  rw [if_neg (by omega)]
  refine ⟨rfl, ?_⟩
  rw [addEntries_append now cost.toNat rnd _ hfresh hdist]
  have hne : ((L.postTrim now r0).entries ++
      (List.range cost.toNat).map
        (fun (i : Nat) => (now + (i : Int), tokenOf now i (rnd i)))).isEmpty = false := by
    have h1 : cost.toNat ≠ 0 := by omega
    simp [List.isEmpty_iff, List.range_eq_nil, h1]
  unfold pexpire
  simp only [hne]
  simp

theorem C5_admitted_consume_spec_witness :
    ((⟨1000, 10, "q"⟩ : RateLimiter).consume 0 2 (fun j => toString j) emptyRecord).1 =
      ⟨true, 8, 10, 1000⟩ ∧
    ((⟨1000, 10, "q"⟩ : RateLimiter).consume 0 2 (fun j => toString j) emptyRecord).2 =
      ⟨[(0, "0-0-0"), (1, "0-1-1")], some 1000⟩ :=
  C5_admitted_consume_spec ⟨1000, 10, "q"⟩ 0 2 (fun j => toString j) emptyRecord
    (by decide) (by decide) (by decide) (by decide)

/-- C8: for every store state, `cost ≥ 0` and a configuration with
`max ≥ 0` (the spec's configuration contract), any result of `check` or
`consume` has `total = max`, a clamped non-negative `remaining`, and
`remaining ≤ total`; for `check` specifically
`remaining = max(0, max − count)` and `allowed = (count < max)` with
`count` the post-trim entry count. -/
theorem C8_result_invariants (L : RateLimiter) (hmax : 0 ≤ L.max) (now cost : Int)
    (hcost : 0 ≤ cost) (rnd : Nat → String) (r0 : RecordState) :
    ((L.check now r0).1.total = L.max ∧
      0 ≤ (L.check now r0).1.remaining ∧
      (L.check now r0).1.remaining ≤ (L.check now r0).1.total ∧
      (L.check now r0).1.remaining = Max.max 0 (L.max - zcard (L.postTrim now r0)) ∧
      ((L.check now r0).1.allowed = true ↔ (zcard (L.postTrim now r0) : Int) < L.max)) ∧
    ((L.consume now cost rnd r0).1.total = L.max ∧
      0 ≤ (L.consume now cost rnd r0).1.remaining ∧
      (L.consume now cost rnd r0).1.remaining ≤ (L.consume now cost rnd r0).1.total) := by
  constructor
  · unfold RateLimiter.check
    simp only [jsOrInt_zero_right]
    refine ⟨by trivial, ?_, ?_, by trivial, by simp⟩
    · show (0 : Int) ≤ Max.max 0 (L.max - (zcard (L.postTrim now r0) : Int))
      exact le_max_left 0 _
    · show Max.max 0 (L.max - (zcard (L.postTrim now r0) : Int)) ≤ L.max
      exact max_le hmax (by omega)
  · unfold RateLimiter.consume
    simp only [jsOrInt_zero_right]
    split
    · exact ⟨by trivial, le_refl 0, hmax⟩
    · refine ⟨by trivial, ?_, ?_⟩
      · show (0 : Int) ≤ Max.max 0 (L.max - (zcard (L.postTrim now r0) : Int) - cost)
        exact le_max_left 0 _
      · show Max.max 0 (L.max - (zcard (L.postTrim now r0) : Int) - cost) ≤ L.max
        exact max_le hmax (by omega)

theorem C8_result_invariants_witness :
    (((⟨1000, 2, "rl:"⟩ : RateLimiter).check 0 ⟨[(0, "x")], some 900⟩).1.total = 2 ∧
      0 ≤ ((⟨1000, 2, "rl:"⟩ : RateLimiter).check 0 ⟨[(0, "x")], some 900⟩).1.remaining ∧
      ((⟨1000, 2, "rl:"⟩ : RateLimiter).check 0 ⟨[(0, "x")], some 900⟩).1.remaining ≤
        ((⟨1000, 2, "rl:"⟩ : RateLimiter).check 0 ⟨[(0, "x")], some 900⟩).1.total ∧
      ((⟨1000, 2, "rl:"⟩ : RateLimiter).check 0 ⟨[(0, "x")], some 900⟩).1.remaining =
        Max.max 0 (2 - zcard (RateLimiter.postTrim ⟨1000, 2, "rl:"⟩ 0
          ⟨[(0, "x")], some 900⟩)) ∧
      (((⟨1000, 2, "rl:"⟩ : RateLimiter).check 0 ⟨[(0, "x")], some 900⟩).1.allowed = true ↔
        (zcard (RateLimiter.postTrim ⟨1000, 2, "rl:"⟩ 0 ⟨[(0, "x")], some 900⟩) : Int)
          < 2)) ∧
    (((⟨1000, 2, "rl:"⟩ : RateLimiter).consume 0 1 (fun _ => "a")
        ⟨[(0, "x")], some 900⟩).1.total = 2 ∧
      0 ≤ ((⟨1000, 2, "rl:"⟩ : RateLimiter).consume 0 1 (fun _ => "a")
        ⟨[(0, "x")], some 900⟩).1.remaining ∧
      ((⟨1000, 2, "rl:"⟩ : RateLimiter).consume 0 1 (fun _ => "a")
          ⟨[(0, "x")], some 900⟩).1.remaining ≤
        ((⟨1000, 2, "rl:"⟩ : RateLimiter).consume 0 1 (fun _ => "a")
          ⟨[(0, "x")], some 900⟩).1.total) :=
  C8_result_invariants ⟨1000, 2, "rl:"⟩ (by decide) 0 1 (by decide) (fun _ => "a")
    ⟨[(0, "x")], some 900⟩

/-- C10 counterexample: `consume(id, 0)` on an absent record whose
post-trim count 0 is below `max = 10` is admitted but does NOT reset the
record's expiry to `windowMs` from now: the key stays absent and `PEXPIRE`
is a no-op on it, so the final expiry is `none`, not `some (7 + 1000)`. -/
theorem C10_zero_cost_expiry_cex :
    ((⟨1000, 10, "rl:"⟩ : RateLimiter).consume 7 0 (fun _ => "a") emptyRecord).1.allowed
      = true ∧
    zcard (RateLimiter.postTrim ⟨1000, 10, "rl:"⟩ 7 emptyRecord) = 0 ∧
    ((⟨1000, 10, "rl:"⟩ : RateLimiter).consume 7 0 (fun _ => "a") emptyRecord).2.expiry
      = none ∧
    ((⟨1000, 10, "rl:"⟩ : RateLimiter).consume 7 0 (fun _ => "a") emptyRecord).2.expiry
      ≠ some (7 + 1000) := by
  decide

/-- C10 amended: for every record whose post-trim count is below `max`,
`consume(id, 0)` is admitted with `remaining = max(0, max − count)` and
inserts no entries; it resets the record's expiry to `windowMs` from now
only when the post-trim record is nonempty (so a zero-cost consume extends
a nonempty record's lifetime without consuming quota) — on an empty record
`PEXPIRE` is a no-op and no expiry is set. -/
theorem C10_zero_cost_consume (L : RateLimiter) (now : Int) (rnd : Nat → String)
    (r0 : RecordState) (hadm : (zcard (L.postTrim now r0) : Int) < L.max) :
    (L.consume now 0 rnd r0).1.allowed = true ∧
    (L.consume now 0 rnd r0).1.remaining =
      Max.max 0 (L.max - zcard (L.postTrim now r0)) ∧
    (L.consume now 0 rnd r0).2.entries = (L.postTrim now r0).entries ∧
    (L.consume now 0 rnd r0).2.expiry =
      (if (L.postTrim now r0).entries.isEmpty then none
       else some (now + L.windowMs)) := by
  unfold RateLimiter.consume
  simp only [jsOrInt_zero_right]
  rw [if_neg (by omega)]
  simp only [show (0 : Int).toNat = 0 from rfl, addEntries, List.range_zero,
    List.foldl_nil]
  refine ⟨by simp, by simp, pexpire_entries now L.windowMs (L.postTrim now r0), ?_⟩
  cases hE : (L.postTrim now r0).entries.isEmpty with
  | true =>
      have he : L.postTrim now r0 = emptyRecord := postTrim_empty L now r0 hE
      rw [he]
      simp [pexpire, emptyRecord]
  | false =>
      simp [pexpire, hE]

theorem C10_zero_cost_consume_witness :
    ((⟨1000, 10, "p"⟩ : RateLimiter).consume 0 0 (fun _ => "a")
        ⟨[(0, "t")], some 500⟩).1.allowed = true ∧
    ((⟨1000, 10, "p"⟩ : RateLimiter).consume 0 0 (fun _ => "a")
        ⟨[(0, "t")], some 500⟩).1.remaining =
      Max.max 0 (10 - zcard (RateLimiter.postTrim ⟨1000, 10, "p"⟩ 0
        ⟨[(0, "t")], some 500⟩)) ∧
    ((⟨1000, 10, "p"⟩ : RateLimiter).consume 0 0 (fun _ => "a")
        ⟨[(0, "t")], some 500⟩).2.entries =
      (RateLimiter.postTrim ⟨1000, 10, "p"⟩ 0 ⟨[(0, "t")], some 500⟩).entries ∧
    ((⟨1000, 10, "p"⟩ : RateLimiter).consume 0 0 (fun _ => "a")
        ⟨[(0, "t")], some 500⟩).2.expiry =
      (if (RateLimiter.postTrim ⟨1000, 10, "p"⟩ 0
          ⟨[(0, "t")], some 500⟩).entries.isEmpty then none
       else some (0 + 1000)) :=
  C10_zero_cost_consume ⟨1000, 10, "p"⟩ 0 (fun _ => "a") ⟨[(0, "t")], some 500⟩
    (by decide)

lemma applyExpiry_keep (now : Int) (es : List (Int × String)) (ex : Option Int)
    (h : ∀ e, ex = some e → now < e) :
    applyExpiry now ⟨es, ex⟩ = ⟨es, ex⟩ := by
  cases ex with
  | none => rfl
  | some e =>
      show (if e ≤ now then emptyRecord else ⟨es, some e⟩) = ⟨es, some e⟩
      rw [if_neg]
      have := h e rfl
      omega

lemma zremrangebyscore_keep (lo hi : Int) (es : List (Int × String)) (ex : Option Int)
    (hkeep : ∀ q ∈ es, ¬ (lo ≤ q.1 ∧ q.1 ≤ hi))
    (hempty : es = [] → ex = none) :
    zremrangebyscore lo hi ⟨es, ex⟩ = ⟨es, ex⟩ := by
  have hfil : es.filter (fun q => decide ¬ (lo ≤ q.1 ∧ q.1 ≤ hi)) = es := by
    rw [List.filter_eq_self]
    intro q hq
    simp only [decide_eq_true_eq]
    exact hkeep q hq
  show (if (es.filter (fun q => decide ¬ (lo ≤ q.1 ∧ q.1 ≤ hi))).isEmpty = true
      then emptyRecord else ⟨es.filter (fun q => decide ¬ (lo ≤ q.1 ∧ q.1 ≤ hi)), ex⟩)
    = ⟨es, ex⟩
  rw [hfil]
  by_cases hnil : es = []
  · rw [if_pos (by simp [hnil])]
    rw [hnil, hempty hnil]
    rfl
  · rw [if_neg (by simp [hnil])]

lemma postTrim_seqRecord (n : Nat) (w t : Int) (hw : 0 < w) (p : String)
    (r : Nat → String) (k : Nat) :
    RateLimiter.postTrim ⟨w, (n : Int), p⟩ t (seqRecord w t r k) = seqRecord w t r k := by
  unfold RateLimiter.postTrim seqRecord
  rw [applyExpiry_keep]
  · rw [zremrangebyscore_keep]
    · intro q hq
      simp only [List.mem_map, List.mem_range] at hq
      obtain ⟨j, hj, rfl⟩ := hq
      show ¬ ((0 : Int) ≤ t ∧ t ≤ t - w)
      omega
    · intro hnil
      have hk0 : k = 0 := by
        have h1 := List.map_eq_nil_iff.mp hnil
        simpa [List.range_eq_nil] using h1
      rw [if_pos hk0]
  · intro e he
    by_cases h0 : k = 0
    · rw [if_pos h0] at he
      cases he
    · rw [if_neg h0] at he
      have := Option.some.inj he
      omega

lemma zcard_seqRecord (w t : Int) (r : Nat → String) (k : Nat) :
    zcard (seqRecord w t r k) = k := by
  simp [zcard, seqRecord]

lemma consume_seqRecord_step (n : Nat) (w t : Int) (hw : 0 < w) (p : String)
    (r : Nat → String) (m : Nat) (hm : m < n)
    (hr : ∀ j, j < n → ∀ k, k < n → tokenOf t 0 (r j) = tokenOf t 0 (r k) → j = k) :
    RateLimiter.consume ⟨w, (n : Int), p⟩ t 1 (fun _ => r m) (seqRecord w t r m) =
      (⟨true, Max.max 0 ((n : Int) - m - 1), (n : Int), t + w⟩,
       seqRecord w t r (m + 1)) := by
  unfold RateLimiter.consume
  simp only [postTrim_seqRecord n w t hw p r m, zcard_seqRecord, jsOrInt_zero_right]
  rw [if_neg (by omega)]
  have hfresh : ∀ i, i < 1 → ∀ q ∈ (seqRecord w t r m).entries,
      q.2 ≠ tokenOf t i ((fun _ => r m) i) := by
    intro i hi q hq
    have hi0 : i = 0 := by omega
    subst hi0
    simp only [seqRecord, List.mem_map, List.mem_range] at hq
    obtain ⟨j, hj, rfl⟩ := hq
    intro hEq
    have := hr j (by omega) m (by omega) hEq
    omega
  have hdist : ∀ i, i < 1 → ∀ j, j < 1 →
      tokenOf t i ((fun _ => r m) i) = tokenOf t j ((fun _ => r m) j) → i = j := by
    intro i hi j hj _
    omega
  rw [show ((1 : Int).toNat) = 1 from rfl]
  rw [addEntries_append t 1 (fun _ => r m) (seqRecord w t r m) hfresh hdist]
  have hlist : (seqRecord w t r m).entries ++
      (List.range 1).map (fun (i : Nat) => (t + (i : Int), tokenOf t i (r m))) =
      (List.range (m + 1)).map (fun (j : Nat) => (t, tokenOf t 0 (r j))) := by
    have h1 : (List.range 1).map (fun (i : Nat) => (t + (i : Int), tokenOf t i (r m)))
        = [(t, tokenOf t 0 (r m))] := by
      rw [show List.range 1 = [0] from rfl]
      simp
    rw [h1, List.range_succ, List.map_append]
    simp [seqRecord]
  rw [hlist]
  have hpe : pexpire t w
      ⟨(List.range (m + 1)).map (fun (j : Nat) => (t, tokenOf t 0 (r j))),
        (seqRecord w t r m).expiry⟩ =
      seqRecord w t r (m + 1) := by
    unfold pexpire seqRecord
    rw [if_neg (by simp [List.isEmpty_iff, List.map_eq_nil_iff, List.range_eq_nil])]
    simp
  rw [hpe]

lemma consumeStateAfter_seqRecord (n : Nat) (w t : Int) (hw : 0 < w) (p : String)
    (r : Nat → String)
    (hr : ∀ j, j < n → ∀ k, k < n → tokenOf t 0 (r j) = tokenOf t 0 (r k) → j = k) :
    ∀ k, k ≤ n →
      RateLimiter.consumeStateAfter ⟨w, (n : Int), p⟩ t r emptyRecord k =
        seqRecord w t r k := by
  intro k
  induction k with
  | zero =>
      intro _
      show emptyRecord = seqRecord w t r 0
      simp [emptyRecord, seqRecord]
  | succ m ih =>
      intro hm
      show (RateLimiter.consume ⟨w, (n : Int), p⟩ t 1 (fun _ => r m)
          (RateLimiter.consumeStateAfter ⟨w, (n : Int), p⟩ t r emptyRecord m)).2 =
        seqRecord w t r (m + 1)
      rw [ih (by omega)]
      rw [consume_seqRecord_step n w t hw p r m (by omega) hr]

/-- C4: for a fresh identifier, `max = n > 0` and `windowMs > 0`, with the
`n + 1` calls sharing one window instant and drawing pairwise distinct
tokens (the random components collide for no two of the first `n` calls),
the first `n` sequential `consume(id, cost=1)` calls each return
`allowed = true` with `remaining` strictly decreasing as `n − 1 − k`
(from `n − 1` down to `0`), and the `(n+1)`-th call returns
`allowed = false` with `remaining = 0`. -/
theorem C4_monotonic_admission (n : Nat) (hn : 0 < n) (w t : Int) (hw : 0 < w)
    (p : String) (r : Nat → String)
    (hr : ∀ j, j < n → ∀ k, k < n →
      tokenOf t 0 (r j) = tokenOf t 0 (r k) → j = k) :
    (∀ k, k < n →
      (RateLimiter.consumeResultAt ⟨w, (n : Int), p⟩ t r emptyRecord k).allowed = true ∧
      (RateLimiter.consumeResultAt ⟨w, (n : Int), p⟩ t r emptyRecord k).remaining
        = (n : Int) - 1 - (k : Int)) ∧
    (RateLimiter.consumeResultAt ⟨w, (n : Int), p⟩ t r emptyRecord n).allowed = false ∧
    (RateLimiter.consumeResultAt ⟨w, (n : Int), p⟩ t r emptyRecord n).remaining = 0 := by
  constructor
  · intro k hk
    unfold RateLimiter.consumeResultAt
    rw [consumeStateAfter_seqRecord n w t hw p r hr k hk.le]
    rw [consume_seqRecord_step n w t hw p r k hk hr]
    constructor
    · rfl
    · show Max.max 0 ((n : Int) - k - 1) = (n : Int) - 1 - (k : Int)
      rw [max_eq_right (by omega)]
      omega
  · unfold RateLimiter.consumeResultAt
    rw [consumeStateAfter_seqRecord n w t hw p r hr n le_rfl]
    unfold RateLimiter.consume
    simp only [postTrim_seqRecord n w t hw p r n, zcard_seqRecord, jsOrInt_zero_right]
    rw [if_pos (by omega)]
    exact ⟨rfl, rfl⟩

theorem C4_monotonic_admission_witness :
    (∀ k, k < 2 →
      (RateLimiter.consumeResultAt ⟨1000, (2 : Int), "rl:"⟩ 0 (fun j => toString j)
        emptyRecord k).allowed = true ∧
      (RateLimiter.consumeResultAt ⟨1000, (2 : Int), "rl:"⟩ 0 (fun j => toString j)
        emptyRecord k).remaining = (2 : Int) - 1 - (k : Int)) ∧
    (RateLimiter.consumeResultAt ⟨1000, (2 : Int), "rl:"⟩ 0 (fun j => toString j)
      emptyRecord 2).allowed = false ∧
    (RateLimiter.consumeResultAt ⟨1000, (2 : Int), "rl:"⟩ 0 (fun j => toString j)
      emptyRecord 2).remaining = 0 :=
  C4_monotonic_admission 2 (by decide) 1000 0 (by decide) "rl:" (fun j => toString j)
    (by decide)
